import Mathlib

/-!
Shallow embedding of the hyperliquid-rust-sdk exchange-client write pipeline
(src/exchange/exchange_client.rs and src/signature/create_signature.rs),
together with proofs checking the natural-language specification against it.

Machine integers (u8/u32/u64, 256-bit words) are modelled as natural numbers;
f64 arithmetic in the price-rounding helpers is modelled exactly over the
rationals (IEEE-754 rounding error is outside the model, the algorithm is
translated operation by operation).  External collaborators that live in
crates outside the repository (the keccak256 hash of alloy, the named-field
MessagePack encoder of rmp_serde, the serde_json renderer, the HTTP client,
the wallet) are taken as function parameters.
-/

/-! ## Bytes and big-endian encodings -/

/-- Big-endian byte list of a natural number, fixed width of k bytes,
mirroring the semantics of Rust u64::to_be_bytes (most-significant first,
each byte the corresponding base-256 digit). -/
def beBytes : Nat → Nat → List Nat
  | 0, _ => []
  | k + 1, n => n / 256 ^ k % 256 :: beBytes k n

/-- Reassemble a big-endian byte list into the natural number it denotes. -/
def fromBeBytes (l : List Nat) : Nat :=
  l.foldl (fun acc b => 256 * acc + b) 0

/-- The 8-byte big-endian encoding written by timestamp.to_be_bytes on a u64. -/
def u64ToBeBytes (n : Nat) : List Nat := beBytes 8 n

/-- A 20-byte Ethereum address (alloy Address), modelled by its numeric value. -/
def EthAddress : Type := Fin (2 ^ 160)

instance : DecidableEq EthAddress := instDecidableEqFin _

/-- The 20 raw bytes of an address, as read out of vault_address.0. -/
def addressBytes (a : EthAddress) : List Nat := beBytes 20 a.val

/-! ## The action data model (src/exchange/exchange_client.rs, Actions enum).

Field layouts of the per-variant payload structs come from the construction
sites inside exchange_client.rs; the struct declarations themselves live in
src/exchange/actions.rs which is not part of the provided sources. -/

structure UsdSend where
  signature_chain_id : Nat
  hyperliquid_chain : String
  destination : String
  amount : String
  time : Nat
deriving DecidableEq

structure UpdateLeverage where
  asset : Nat
  is_cross : Bool
  leverage : Nat
deriving DecidableEq

structure UpdateIsolatedMargin where
  asset : Nat
  is_buy : Bool
  ntli : Int
deriving DecidableEq

structure ClientLimit where
  tif : String
deriving DecidableEq

inductive ClientOrder where
  | Limit (limit : ClientLimit)
deriving DecidableEq

/-- Modelled from the spec: the client-side order request
(src/exchange/order.rs is absent from src/); fields are those set at the
construction sites in exchange_client.rs (market_open, market_close). -/
structure ClientOrderRequest where
  asset : String
  is_buy : Bool
  reduce_only : Bool
  limit_px : ℚ
  sz : ℚ
  cloid : Option String
  order_type : ClientOrder
deriving DecidableEq

/-- Modelled from the spec: the protocol-side order request produced by
ClientOrderRequest::convert, with the symbol replaced by its asset index. -/
structure OrderRequest where
  asset : Nat
  is_buy : Bool
  reduce_only : Bool
  limit_px : ℚ
  sz : ℚ
deriving DecidableEq

structure BuilderInfo where
  builder : String
deriving DecidableEq

structure BulkOrder where
  orders : List OrderRequest
  grouping : String
  builder : Option BuilderInfo
deriving DecidableEq

structure CancelRequest where
  asset : Nat
  oid : Nat
deriving DecidableEq

structure BulkCancel where
  cancels : List CancelRequest
deriving DecidableEq

structure CancelRequestCloid where
  asset : Nat
  cloid : String
deriving DecidableEq

structure BulkCancelCloid where
  cancels : List CancelRequestCloid
deriving DecidableEq

structure ModifyRequest where
  oid : Nat
  order : OrderRequest
deriving DecidableEq

structure BulkModify where
  modifies : List ModifyRequest
deriving DecidableEq

structure ApproveAgent where
  signature_chain_id : Nat
  hyperliquid_chain : String
  agent_address : String
  agent_name : String
  nonce : Nat
deriving DecidableEq

structure Withdraw3 where
  signature_chain_id : Nat
  hyperliquid_chain : String
  destination : String
  amount : String
  time : Nat
deriving DecidableEq

structure ClassTransfer where
  usdc : Nat
  to_perp : Bool
deriving DecidableEq

structure SpotUser where
  class_transfer : ClassTransfer
deriving DecidableEq

structure VaultTransfer where
  vault_address : EthAddress
  is_deposit : Bool
  usd : String
deriving DecidableEq

structure SpotSend where
  signature_chain_id : Nat
  hyperliquid_chain : String
  destination : String
  amount : String
  time : Nat
  token : String
deriving DecidableEq

structure SetReferrer where
  code : String
deriving DecidableEq

structure ApproveBuilderFee where
  signature_chain_id : Nat
  hyperliquid_chain : String
  builder : String
  max_fee_rate : String
  nonce : Nat
deriving DecidableEq

structure UsdClassTransfer where
  hyperliquid_chain : String
  signature_chain_id : Nat
  amount : String
  to_perp : Bool
  nonce : Nat
deriving DecidableEq

/-- The closed action union (Actions enum of exchange_client.rs). -/
inductive Actions where
  | UsdSend (a : UsdSend)
  | UpdateLeverage (a : UpdateLeverage)
  | UpdateIsolatedMargin (a : UpdateIsolatedMargin)
  | Order (a : BulkOrder)
  | Cancel (a : BulkCancel)
  | CancelByCloid (a : BulkCancelCloid)
  | BatchModify (a : BulkModify)
  | ApproveAgent (a : ApproveAgent)
  | Withdraw3 (a : Withdraw3)
  | SpotUser (a : SpotUser)
  | VaultTransfer (a : VaultTransfer)
  | SpotSend (a : SpotSend)
  | SetReferrer (a : SetReferrer)
  | ApproveBuilderFee (a : ApproveBuilderFee)
  | UsdClassTransfer (a : UsdClassTransfer)
deriving DecidableEq

/-! ## Actions::hash -/

/-- The byte written after the nonce: 0x00 when no vault address is present,
0x01 followed by the 20 address bytes when one is. -/
def vaultTagBytes : Option EthAddress → List Nat
  | none => [0]
  | some va => 1 :: addressBytes va

/-- Actions::hash (exchange_client.rs, lines 73-88), with the external
collaborators as parameters: enc is rmp_serde::to_vec_named (named-field
MessagePack serialization of the tagged action) and keccak is the keccak256
of alloy.  The byte buffer is assembled exactly as in the source: the
MessagePack bytes, extended with timestamp.to_be_bytes, then either a pushed
1 followed by the vault-address bytes or a pushed 0. -/
def Actions.hash (keccak : List Nat → Nat) (enc : Actions → List Nat)
    (a : Actions) (timestamp : Nat) (vault_address : Option EthAddress) : Nat :=
  let bytes := enc a
  let bytes := bytes ++ u64ToBeBytes timestamp
  let bytes :=
    match vault_address with
    | some va => (bytes ++ [1]) ++ addressBytes va
    | none => bytes ++ [0]
  keccak bytes

/-! ## Errors, signatures, signing paths -/

/-- The typed error union of the crate (variants as used in the provided
sources; the enum itself is declared outside src/). -/
inductive Error where
  | RmpParse (s : String)
  | JsonParse (s : String)
  | AssetNotFound
  | VaultAddressNotFound
  | Eip712 (s : String)
  | GenericRequest (s : String)
  | FloatStringParse
deriving DecidableEq

/-- A recoverable secp256k1 signature as returned by the wallet:
r, s and the recovery id (signature.recid()). -/
structure RecoverableSignature where
  r : Nat
  s : Nat
  recid : Nat
deriving DecidableEq

/-- The l1::Agent struct signed on the L1-agent path
(src/signature/create_signature.rs). -/
structure Agent where
  source : String
  connection_id : Nat
deriving DecidableEq

/-- The agent payload constructed by sign_l1_action: source is "a" when
is_mainnet and "b" otherwise, together with the connection id. -/
def agentPayload (connection_id : Nat) (is_mainnet : Bool) : Agent :=
  { source := if is_mainnet then "a" else "b", connection_id := connection_id }

/-- What the wallet is asked to sign, per signing path: either the typed-data
hash of the action struct itself (sign_typed_data on the action), or the
typed-data hash of the Agent wrapper around a ConnectionId (sign_l1_action). -/
inductive SignedPayload where
  | typedData (action : Actions)
  | l1Agent (agent : Agent)
deriving DecidableEq

def SignedPayload.isL1Agent : SignedPayload → Bool
  | .l1Agent _ => true
  | .typedData _ => false

def SignedPayload.isTypedData : SignedPayload → Bool
  | .typedData _ => true
  | .l1Agent _ => false

/-- Outcome of a fallible call, distinguishing a returned typed error from a
Rust panic (an .unwrap() on an Err aborts instead of returning). -/
inductive CallOutcome (α : Type) where
  | ok (a : α)
  | err (e : Error)
  | panicked
deriving DecidableEq

/-- sign_hash (create_signature.rs, lines 38-45): the wallet's sign_hash
result is consumed with .unwrap(), so a signer failure panics instead of
surfacing as a typed error. -/
def sign_hash (signerResult : Except String RecoverableSignature) :
    CallOutcome RecoverableSignature :=
  match signerResult with
  | .error _ => .panicked
  | .ok signature => .ok signature

/-! ## The exchange client and the wire payload -/

/-- A tiny JSON value model, enough to state the shape of the wire body. -/
inductive JVal where
  | num (n : Nat)
  | str (s : String)
  | obj (fields : List (String × JVal))

def mainnetUrl : String := "https://api.hyperliquid.xyz"

/-- ExchangeClient state (wallet and HTTP machinery abstracted; the
coin_to_asset HashMap is modelled as an association list). -/
structure ExchangeClient where
  base_url : String
  vault_address : Option EthAddress
  coin_to_asset : List (String × Nat)

/-- Modelled from the spec: HttpClient::is_mainnet lives in src/req.rs,
absent from src/.  Per the spec the mainnet/testnet discriminator "is derived
from the active base URL"; the mainnet base-URL string is the one matched in
market_close / calculate_slippage_price. -/
def ExchangeClient.is_mainnet (c : ExchangeClient) : Bool :=
  c.base_url == mainnetUrl

/-- The ethers-style signature serialized into the wire body, with the
v byte already derived. -/
structure EthersSignature where
  r : Nat
  s : Nat
  v : Nat
deriving DecidableEq

/-- The ExchangePayload struct (exchange_client.rs, lines 41-49). -/
structure ExchangePayload where
  action : JVal
  signature : EthersSignature
  nonce : Nat
  vault_address : Option EthAddress

def jsonOfEthersSignature (s : EthersSignature) : JVal :=
  .obj [("r", .num s.r), ("s", .num s.s), ("v", .num s.v)]

def jsonOfAddress (a : EthAddress) : JVal := .num a.val

/-- serde serialization of ExchangePayload: fields in declaration order,
names camelCased, the vault_address field skipped when None
(skip_serializing_if = Option::is_none). -/
def serializeExchangePayload (p : ExchangePayload) : JVal :=
  .obj ([("action", p.action),
         ("signature", jsonOfEthersSignature p.signature),
         ("nonce", .num p.nonce)] ++
        (match p.vault_address with
         | none => []
         | some a => [("vaultAddress", jsonOfAddress a)]))

/-- The wire payload ExchangeClient::post assembles from a signature and
nonce: v is the recovery id plus 27, the vault address is the client's. -/
def ExchangeClient.wirePayload (c : ExchangeClient) (action : JVal)
    (signature : RecoverableSignature) (nonce : Nat) : ExchangePayload :=
  { action := action
    signature :=
      { r := signature.r, s := signature.s, v := signature.recid + 27 }
    nonce := nonce
    vault_address := c.vault_address }

/-- ExchangeClient::post (exchange_client.rs, lines 131-152).  render models
serde_json::to_string (its failure is mapped to the typed JsonParse error),
http models http_client.post — whose result the source consumes with
.unwrap(), turning a transport failure into a panic — and parse models the
serde_json::from_str of the response body. -/
def ExchangeClient.post (c : ExchangeClient) (action : JVal)
    (signature : RecoverableSignature) (nonce : Nat)
    (render : JVal → Except String String)
    (http : String → Except String String)
    (parse : String → Except String String) :
    CallOutcome String :=
  let exchange_payload := c.wirePayload action signature nonce
  match render (serializeExchangePayload exchange_payload) with
  | .error e => .err (.JsonParse e)
  | .ok res =>
    match http res with
    | .error _ => .panicked
    | .ok output =>
      match parse output with
      | .error e => .err (.JsonParse e)
      | .ok status => .ok status

/-! ## The mutating-call pipelines.

Each operation is split into the part that builds the signed submission
(symbol resolution, action construction, ConnectionId hashing, signing-path
selection) and the generic tail that assembles the wire payload and posts
it; the source writes both halves inline in one function ending in
self.post(action, signature, timestamp).  The external collaborators —
keccak, the MessagePack encoder, the wallet (sign), the JSON encoder of the
action, and the HTTP stack — are parameters throughout. -/

/-- A fully prepared submission: the action, what the wallet signed, the
signature, and the nonce embedded in both hash and envelope. -/
structure Submission where
  action : Actions
  signedPayload : SignedPayload
  signature : RecoverableSignature
  nonce : Nat

/-- The common tail of every mutating call: jsonEnc models
serde_json::to_value on the action; the prepared submission is posted. -/
def ExchangeClient.runSubmission (c : ExchangeClient)
    (jsonEnc : Actions → JVal)
    (render : JVal → Except String String)
    (http : String → Except String String)
    (parse : String → Except String String) :
    Except Error Submission → CallOutcome String
  | .error e => .err e
  | .ok s => c.post (jsonEnc s.action) s.signature s.nonce render http parse

/-! ## The price-rounding helpers (exchange_client.rs, lines 760-771).

The f64 arithmetic is modelled exactly over the rationals: powi becomes an
integer power of 10, f64::round becomes round-half-away-from-zero on ℚ,
copysign keeps its sign-transfer semantics, and abs_value.log10().floor()
becomes Int.log 10 (the floor of the base-10 logarithm for positive input). -/

/-- f64::round rounds half-way cases away from zero; Mathlib round rounds
half up, which agrees on nonnegative input, so negatives go through a
reflection. -/
def rustRound (x : ℚ) : ℤ :=
  if x < 0 then -round (-x) else round x

/-- f64::copysign: the magnitude of the first argument with the sign of the
second (ℚ has no negative zero, so sign of zero is positive). -/
def copysign (x s : ℚ) : ℚ :=
  if s < 0 then -|x| else |x|

/-- round_to_decimals (exchange_client.rs, lines 760-763). -/
def round_to_decimals (value : ℚ) (decimals : Nat) : ℚ :=
  let factor : ℚ := 10 ^ decimals
  (rustRound (value * factor) : ℚ) / factor

/-- round_to_significant_and_decimal (exchange_client.rs, lines 765-771). -/
def round_to_significant_and_decimal (value : ℚ) (sig_figs : Nat)
    (max_decimals : Nat) : ℚ :=
  let abs_value := |value|
  let magnitude : ℤ := Int.log 10 abs_value
  let scale : ℚ := 10 ^ ((sig_figs : ℤ) - magnitude - 1)
  let rounded := (rustRound (abs_value * scale) : ℚ) / scale
  round_to_decimals (copysign rounded value) max_decimals

/-- The pure core of calculate_slippage_price (exchange_client.rs, lines
380-433), after the asset index, size decimals and reference mid price have
been resolved (the metadata and mid-price services are external reads). -/
def calculate_slippage_price (asset_index : Nat) (sz_decimals : Nat)
    (is_buy : Bool) (slippage : ℚ) (px : ℚ) : ℚ × Nat :=
  let max_decimals : Nat := if asset_index < 10000 then 6 else 8
  let price_decimals := max_decimals - sz_decimals
  let slippage_factor := if is_buy then 1 + slippage else 1 - slippage
  let px := px * slippage_factor
  let px := round_to_significant_and_decimal px 5 price_decimals
  (px, sz_decimals)

/-! ## Client-side request types resolved against coin_to_asset -/

structure ClientCancelRequest where
  asset : String
  oid : Nat
deriving DecidableEq

structure ClientCancelRequestCloid where
  asset : String
  cloid : String
deriving DecidableEq

structure ClientModifyRequest where
  oid : Nat
  order : ClientOrderRequest
deriving DecidableEq

/-- Modelled from the spec: ClientOrderRequest::convert
(src/exchange/order.rs, absent from src/) resolves the coin symbol through
the coin_to_asset map; per the spec, "lookups fail loudly if a requested
symbol is unknown" with the AssetNotFound error. -/
def ClientOrderRequest.convert (o : ClientOrderRequest)
    (coin_to_asset : List (String × Nat)) : Except Error OrderRequest :=
  match coin_to_asset.lookup o.asset with
  | none => .error .AssetNotFound
  | some asset =>
    .ok { asset := asset, is_buy := o.is_buy, reduce_only := o.reduce_only,
          limit_px := o.limit_px, sz := o.sz }

/-- The transformation loop of bulk_cancel (exchange_client.rs, 526-536):
each symbol is looked up, an unknown symbol aborts with AssetNotFound. -/
def transformCancels (coin_to_asset : List (String × Nat)) :
    List ClientCancelRequest → Except Error (List CancelRequest)
  | [] => .ok []
  | cancel :: rest =>
    match coin_to_asset.lookup cancel.asset with
    | none => .error .AssetNotFound
    | some asset =>
      match transformCancels coin_to_asset rest with
      | .error e => .error e
      | .ok tail => .ok ({ asset := asset, oid := cancel.oid } :: tail)

/-- The transformation loop of bulk_cancel_by_cloid (exchange_client.rs,
602-612); uuidToHex models the uuid_to_hex_string helper. -/
def transformCancelsCloid (uuidToHex : String → String)
    (coin_to_asset : List (String × Nat)) :
    List ClientCancelRequestCloid → Except Error (List CancelRequestCloid)
  | [] => .ok []
  | cancel :: rest =>
    match coin_to_asset.lookup cancel.asset with
    | none => .error .AssetNotFound
    | some asset =>
      match transformCancelsCloid uuidToHex coin_to_asset rest with
      | .error e => .error e
      | .ok tail => .ok ({ asset := asset, cloid := uuidToHex cancel.cloid } :: tail)

/-- The transformation loop of bulk_order (exchange_client.rs, 461-465). -/
def transformOrders (coin_to_asset : List (String × Nat)) :
    List ClientOrderRequest → Except Error (List OrderRequest)
  | [] => .ok []
  | order :: rest =>
    match order.convert coin_to_asset with
    | .error e => .error e
    | .ok o =>
      match transformOrders coin_to_asset rest with
      | .error e => .error e
      | .ok tail => .ok (o :: tail)

/-- The transformation loop of bulk_modify (exchange_client.rs, 566-572). -/
def transformModifies (coin_to_asset : List (String × Nat)) :
    List ClientModifyRequest → Except Error (List ModifyRequest)
  | [] => .ok []
  | modify :: rest =>
    match modify.order.convert coin_to_asset with
    | .error e => .error e
    | .ok o =>
      match transformModifies coin_to_asset rest with
      | .error e => .error e
      | .ok tail => .ok ({ oid := modify.oid, order := o } :: tail)

/-! ## L1-path mutating operations.

Every operation takes the external collaborators as parameters: keccak and
enc feed Actions::hash, sign models the wallet applied to the selected
signing payload (sign_l1_action or sign_typed_data followed by sign_hash),
and the timestamp parameter is the nonce obtained from next_nonce() at the
top of the call. -/

/-- Builds the L1-agent submission shared by every L1-class operation: hash
to a ConnectionId against the client's vault address, wrap in the Agent
struct via sign_l1_action, sign, and pair with the nonce. -/
def ExchangeClient.l1Submission (c : ExchangeClient)
    (keccak : List Nat → Nat) (enc : Actions → List Nat)
    (sign : SignedPayload → RecoverableSignature)
    (timestamp : Nat) (action : Actions) : Submission :=
  let connection_id := Actions.hash keccak enc action timestamp c.vault_address
  let payload := SignedPayload.l1Agent (agentPayload connection_id c.is_mainnet)
  { action := action, signedPayload := payload, signature := sign payload,
    nonce := timestamp }

/-- class_transfer (exchange_client.rs, lines 182-202): the usdc amount is
scaled by 1e6 and rounded to a u64 (a negative rounds saturates to 0 in the
float-to-int cast). -/
def ExchangeClient.class_transfer_submission (c : ExchangeClient)
    (keccak : List Nat → Nat) (enc : Actions → List Nat)
    (sign : SignedPayload → RecoverableSignature)
    (timestamp : Nat) (usdc : ℚ) (to_perp : Bool) : Except Error Submission :=
  let usdcInt : Nat := (rustRound (usdc * 1000000)).toNat
  let action := Actions.SpotUser { class_transfer := { usdc := usdcInt, to_perp := to_perp } }
  .ok (c.l1Submission keccak enc sign timestamp action)

/-- vault_transfer (exchange_client.rs, lines 255-281): the client's
configured vault address takes precedence over the per-call argument via
self.vault_address.or(vault_address); when both are None the call fails with
VaultAddressNotFound before any hashing or signing. -/
def ExchangeClient.vault_transfer_submission (c : ExchangeClient)
    (keccak : List Nat → Nat) (enc : Actions → List Nat)
    (sign : SignedPayload → RecoverableSignature)
    (timestamp : Nat) (is_deposit : Bool) (usd : String)
    (vault_address : Option EthAddress) : Except Error Submission :=
  match c.vault_address.or vault_address with
  | none => .error .VaultAddressNotFound
  | some vault_address =>
    let action := Actions.VaultTransfer
      { vault_address := vault_address, is_deposit := is_deposit, usd := usd }
    .ok (c.l1Submission keccak enc sign timestamp action)

/-- bulk_order (exchange_client.rs, lines 453-478). -/
def ExchangeClient.bulk_order_submission (c : ExchangeClient)
    (keccak : List Nat → Nat) (enc : Actions → List Nat)
    (sign : SignedPayload → RecoverableSignature)
    (timestamp : Nat) (orders : List ClientOrderRequest) :
    Except Error Submission :=
  match transformOrders c.coin_to_asset orders with
  | .error e => .error e
  | .ok transformed_orders =>
    let action := Actions.Order
      { orders := transformed_orders, grouping := "na", builder := none }
    .ok (c.l1Submission keccak enc sign timestamp action)

/-- bulk_cancel (exchange_client.rs, lines 518-548). -/
def ExchangeClient.bulk_cancel_submission (c : ExchangeClient)
    (keccak : List Nat → Nat) (enc : Actions → List Nat)
    (sign : SignedPayload → RecoverableSignature)
    (timestamp : Nat) (cancels : List ClientCancelRequest) :
    Except Error Submission :=
  match transformCancels c.coin_to_asset cancels with
  | .error e => .error e
  | .ok transformed_cancels =>
    let action := Actions.Cancel { cancels := transformed_cancels }
    .ok (c.l1Submission keccak enc sign timestamp action)

/-- bulk_modify (exchange_client.rs, lines 558-584). -/
def ExchangeClient.bulk_modify_submission (c : ExchangeClient)
    (keccak : List Nat → Nat) (enc : Actions → List Nat)
    (sign : SignedPayload → RecoverableSignature)
    (timestamp : Nat) (modifies : List ClientModifyRequest) :
    Except Error Submission :=
  match transformModifies c.coin_to_asset modifies with
  | .error e => .error e
  | .ok transformed_modifies =>
    let action := Actions.BatchModify { modifies := transformed_modifies }
    .ok (c.l1Submission keccak enc sign timestamp action)

/-- bulk_cancel_by_cloid (exchange_client.rs, lines 594-624). -/
def ExchangeClient.bulk_cancel_by_cloid_submission (c : ExchangeClient)
    (keccak : List Nat → Nat) (enc : Actions → List Nat)
    (sign : SignedPayload → RecoverableSignature)
    (uuidToHex : String → String)
    (timestamp : Nat) (cancels : List ClientCancelRequestCloid) :
    Except Error Submission :=
  match transformCancelsCloid uuidToHex c.coin_to_asset cancels with
  | .error e => .error e
  | .ok transformed_cancels =>
    let action := Actions.CancelByCloid { cancels := transformed_cancels }
    .ok (c.l1Submission keccak enc sign timestamp action)

/-- update_leverage (exchange_client.rs, lines 626-649). -/
def ExchangeClient.update_leverage_submission (c : ExchangeClient)
    (keccak : List Nat → Nat) (enc : Actions → List Nat)
    (sign : SignedPayload → RecoverableSignature)
    (timestamp : Nat) (leverage : Nat) (coin : String) (is_cross : Bool) :
    Except Error Submission :=
  match c.coin_to_asset.lookup coin with
  | none => .error .AssetNotFound
  | some asset_index =>
    let action := Actions.UpdateLeverage
      { asset := asset_index, is_cross := is_cross, leverage := leverage }
    .ok (c.l1Submission keccak enc sign timestamp action)

/-- update_isolated_margin (exchange_client.rs, lines 651-674): the amount
is scaled by 1e6 and rounded to an i64 before the lookup. -/
def ExchangeClient.update_isolated_margin_submission (c : ExchangeClient)
    (keccak : List Nat → Nat) (enc : Actions → List Nat)
    (sign : SignedPayload → RecoverableSignature)
    (timestamp : Nat) (amount : ℚ) (coin : String) :
    Except Error Submission :=
  let amountInt : Int := rustRound (amount * 1000000)
  match c.coin_to_asset.lookup coin with
  | none => .error .AssetNotFound
  | some asset_index =>
    let action := Actions.UpdateIsolatedMargin
      { asset := asset_index, is_buy := true, ntli := amountInt }
    .ok (c.l1Submission keccak enc sign timestamp action)

/-- set_referrer (exchange_client.rs, lines 741-757): note that the source
hashes the SetReferrer action into a ConnectionId and signs it through
sign_l1_action, i.e. on the L1-agent path. -/
def ExchangeClient.set_referrer_submission (c : ExchangeClient)
    (keccak : List Nat → Nat) (enc : Actions → List Nat)
    (sign : SignedPayload → RecoverableSignature)
    (timestamp : Nat) (code : String) : Except Error Submission :=
  let action := Actions.SetReferrer { code := code }
  .ok (c.l1Submission keccak enc sign timestamp action)

/-! ## Full mutating calls: submission followed by self.post.

These package the source functions end to end; jsonEnc models
serde_json::to_value on the action, and render / http / parse are the wire
collaborators of ExchangeClient::post. -/

def ExchangeClient.bulk_cancel (c : ExchangeClient)
    (keccak : List Nat → Nat) (enc : Actions → List Nat)
    (sign : SignedPayload → RecoverableSignature) (jsonEnc : Actions → JVal)
    (render : JVal → Except String String)
    (http : String → Except String String)
    (parse : String → Except String String)
    (timestamp : Nat) (cancels : List ClientCancelRequest) :
    CallOutcome String :=
  c.runSubmission jsonEnc render http parse
    (c.bulk_cancel_submission keccak enc sign timestamp cancels)

def ExchangeClient.bulk_order (c : ExchangeClient)
    (keccak : List Nat → Nat) (enc : Actions → List Nat)
    (sign : SignedPayload → RecoverableSignature) (jsonEnc : Actions → JVal)
    (render : JVal → Except String String)
    (http : String → Except String String)
    (parse : String → Except String String)
    (timestamp : Nat) (orders : List ClientOrderRequest) :
    CallOutcome String :=
  c.runSubmission jsonEnc render http parse
    (c.bulk_order_submission keccak enc sign timestamp orders)

def ExchangeClient.bulk_modify (c : ExchangeClient)
    (keccak : List Nat → Nat) (enc : Actions → List Nat)
    (sign : SignedPayload → RecoverableSignature) (jsonEnc : Actions → JVal)
    (render : JVal → Except String String)
    (http : String → Except String String)
    (parse : String → Except String String)
    (timestamp : Nat) (modifies : List ClientModifyRequest) :
    CallOutcome String :=
  c.runSubmission jsonEnc render http parse
    (c.bulk_modify_submission keccak enc sign timestamp modifies)

def ExchangeClient.update_leverage (c : ExchangeClient)
    (keccak : List Nat → Nat) (enc : Actions → List Nat)
    (sign : SignedPayload → RecoverableSignature) (jsonEnc : Actions → JVal)
    (render : JVal → Except String String)
    (http : String → Except String String)
    (parse : String → Except String String)
    (timestamp : Nat) (leverage : Nat) (coin : String) (is_cross : Bool) :
    CallOutcome String :=
  c.runSubmission jsonEnc render http parse
    (c.update_leverage_submission keccak enc sign timestamp leverage coin is_cross)

def ExchangeClient.vault_transfer (c : ExchangeClient)
    (keccak : List Nat → Nat) (enc : Actions → List Nat)
    (sign : SignedPayload → RecoverableSignature) (jsonEnc : Actions → JVal)
    (render : JVal → Except String String)
    (http : String → Except String String)
    (parse : String → Except String String)
    (timestamp : Nat) (is_deposit : Bool) (usd : String)
    (vault_address : Option EthAddress) : CallOutcome String :=
  c.runSubmission jsonEnc render http parse
    (c.vault_transfer_submission keccak enc sign timestamp is_deposit usd vault_address)

def ExchangeClient.set_referrer (c : ExchangeClient)
    (keccak : List Nat → Nat) (enc : Actions → List Nat)
    (sign : SignedPayload → RecoverableSignature) (jsonEnc : Actions → JVal)
    (render : JVal → Except String String)
    (http : String → Except String String)
    (parse : String → Except String String)
    (timestamp : Nat) (code : String) : CallOutcome String :=
  c.runSubmission jsonEnc render http parse
    (c.set_referrer_submission keccak enc sign timestamp code)

/-! # Theorems -/

/-! ## Byte-level lemmas -/

theorem beBytes_length (k n : Nat) : (beBytes k n).length = k := by
  induction k with
  | zero => rfl
  | succ k ih => simp [beBytes, ih]

theorem beBytes_lt (k n : Nat) : ∀ b ∈ beBytes k n, b < 256 := by
  induction k with
  | zero => simp [beBytes]
  | succ k ih =>
    intro b hb
    rcases List.mem_cons.mp hb with h | h
    · exact h ▸ Nat.mod_lt _ (by norm_num)
    · exact ih b h

theorem foldl_beBytes (k n acc : Nat) :
    List.foldl (fun acc b => 256 * acc + b) acc (beBytes k n)
      = acc * 256 ^ k + n % 256 ^ k := by
  induction k generalizing acc with
  | zero => simp [beBytes, Nat.mod_one]
  | succ k ih =>
    show List.foldl _ (256 * acc + n / 256 ^ k % 256) (beBytes k n) = _
    rw [ih, pow_succ, Nat.mod_mul]
    ring

theorem fromBeBytes_beBytes (k n : Nat) (h : n < 256 ^ k) :
    fromBeBytes (beBytes k n) = n := by
  unfold fromBeBytes
  rw [foldl_beBytes]
  simp [Nat.mod_eq_of_lt h]

theorem beBytes_inj (k : Nat) {m n : Nat} (hm : m < 256 ^ k) (hn : n < 256 ^ k)
    (h : beBytes k m = beBytes k n) : m = n := by
  have := congrArg fromBeBytes h
  rwa [fromBeBytes_beBytes k m hm, fromBeBytes_beBytes k n hn] at this

theorem addressBytes_inj {a b : EthAddress} (h : addressBytes a = addressBytes b) :
    a = b := by
  have ha : a.val < 256 ^ 20 := lt_of_lt_of_le a.isLt (by norm_num)
  have hb : b.val < 256 ^ 20 := lt_of_lt_of_le b.isLt (by norm_num)
  exact Fin.val_injective (beBytes_inj 20 ha hb h)

theorem vaultTagBytes_inj {v v' : Option EthAddress}
    (h : vaultTagBytes v = vaultTagBytes v') : v = v' := by
  cases v with
  | none =>
    cases v' with
    | none => rfl
    | some b => simp [vaultTagBytes] at h
  | some a =>
    cases v' with
    | none => simp [vaultTagBytes] at h
    | some b =>
      simp only [vaultTagBytes, List.cons.injEq, true_and] at h
      exact congrArg some (addressBytes_inj h)

/-- Shared layout lemma: Actions::hash is keccak of the concatenation of the
canonical action bytes, the 8-byte big-endian nonce, and the vault tag. -/
theorem hash_concat (keccak : List Nat → Nat) (enc : Actions → List Nat)
    (a : Actions) (n : Nat) (v : Option EthAddress) :
    Actions.hash keccak enc a n v
      = keccak (enc a ++ u64ToBeBytes n ++ vaultTagBytes v) := by
  cases v with
  | none => rfl
  | some va => simp [Actions.hash, vaultTagBytes, List.append_assoc]

/-- C1: For every action A, 64-bit nonce n, and optional vault address v,
the ConnectionId computed by Actions::hash equals keccak256 of the canonical
(MessagePack, named-field) encoding of A, followed by the 8-byte big-endian
encoding of n, followed by a single byte 0x00 when v is absent or the byte
0x01 followed by the 20 vault-address bytes when v is present. -/
theorem c1_connection_id_layout (keccak : List Nat → Nat)
    (enc : Actions → List Nat) (a : Actions) (n : Nat) (v : Option EthAddress)
    (hn : n < 2 ^ 64) :
    Actions.hash keccak enc a n v
      = keccak (enc a ++ u64ToBeBytes n ++ vaultTagBytes v)
    ∧ (u64ToBeBytes n).length = 8
    ∧ fromBeBytes (u64ToBeBytes n) = n
    ∧ (∀ b ∈ u64ToBeBytes n, b < 256)
    ∧ vaultTagBytes none = [0]
    ∧ (∀ addr : EthAddress, vaultTagBytes (some addr) = 1 :: addressBytes addr
        ∧ (addressBytes addr).length = 20) := by
  refine ⟨hash_concat keccak enc a n v, beBytes_length 8 n, ?_,
    beBytes_lt 8 n, rfl, fun addr => ⟨rfl, beBytes_length 20 addr.val⟩⟩
  exact fromBeBytes_beBytes 8 n (lt_of_lt_of_le hn (by norm_num))

theorem c1_connection_id_layout_witness :
    3 < 2 ^ 64
    ∧ Actions.hash fromBeBytes (fun _ => []) (Actions.SetReferrer { code := "x" }) 3 none
        = fromBeBytes ((fun _ : Actions => ([] : List Nat))
            (Actions.SetReferrer { code := "x" }) ++ u64ToBeBytes 3 ++ vaultTagBytes none) :=
  ⟨by norm_num,
   (c1_connection_id_layout fromBeBytes (fun _ => [])
      (Actions.SetReferrer { code := "x" }) 3 none (by norm_num)).1⟩

/-- C9: Actions::hash is deterministic — identical action, nonce and vault
address always give the identical ConnectionId — and, for any collision-free
hash function, changing the nonce or the vault address (including present
versus absent) changes the resulting ConnectionId, because the byte string
fed to keccak256 determines the nonce and the vault address uniquely. -/
theorem c9_hash_deterministic_and_input_injective (keccak : List Nat → Nat)
    (enc : Actions → List Nat) (a : Actions) :
    (∀ n v, Actions.hash keccak enc a n v = Actions.hash keccak enc a n v)
    ∧ (∀ n n' v v', n < 2 ^ 64 → n' < 2 ^ 64 → Function.Injective keccak →
        (n ≠ n' ∨ v ≠ v') →
        Actions.hash keccak enc a n v ≠ Actions.hash keccak enc a n' v') := by
  refine ⟨fun n v => rfl, fun n n' v v' hn hn' hinj hne heq => ?_⟩
  rw [hash_concat, hash_concat] at heq
  have hbytes := hinj heq
  rw [List.append_assoc, List.append_assoc] at hbytes
  have htail := List.append_cancel_left hbytes
  have hlen : (u64ToBeBytes n).length = (u64ToBeBytes n').length := by
    simp [u64ToBeBytes, beBytes_length]
  obtain ⟨hbe, htag⟩ := List.append_inj htail hlen
  have hnn : n = n' := beBytes_inj 8 (lt_of_lt_of_le hn (by norm_num))
    (lt_of_lt_of_le hn' (by norm_num)) hbe
  have hvv : v = v' := vaultTagBytes_inj htag
  rcases hne with h | h
  · exact h hnn
  · exact h hvv

theorem c9_hash_witness :
    1 < 2 ^ 64 ∧ 2 < 2 ^ 64
    ∧ Actions.hash Encodable.encode (fun _ => [])
        (Actions.SetReferrer { code := "x" }) 1 none
      ≠ Actions.hash Encodable.encode (fun _ => [])
        (Actions.SetReferrer { code := "x" }) 2 none :=
  ⟨by norm_num, by norm_num,
   (c9_hash_deterministic_and_input_injective Encodable.encode (fun _ => [])
      (Actions.SetReferrer { code := "x" })).2 1 2 none none
     (by norm_num) (by norm_num) Encodable.encode_injective (Or.inl (by norm_num))⟩

/-! ## Signing-path claims -/

/-- Shared helper: the payload every L1-class submission hands to the
wallet is the Agent wrapper around the ConnectionId. -/
theorem l1Submission_signedPayload (c : ExchangeClient)
    (keccak : List Nat → Nat) (enc : Actions → List Nat)
    (sign : SignedPayload → RecoverableSignature)
    (timestamp : Nat) (action : Actions) :
    (c.l1Submission keccak enc sign timestamp action).signedPayload
      = SignedPayload.l1Agent
          (agentPayload (Actions.hash keccak enc action timestamp c.vault_address)
            c.is_mainnet)
    ∧ (c.l1Submission keccak enc sign timestamp action).nonce = timestamp
    ∧ (c.l1Submission keccak enc sign timestamp action).action = action :=
  ⟨rfl, rfl, rfl⟩

/-- A concrete testnet client used for closed counterexamples/witnesses. -/
def testnetClient : ExchangeClient :=
  { base_url := "https://api.hyperliquid-testnet.xyz"
    vault_address := none
    coin_to_asset := [("ETH", 1)] }

/-- A concrete mainnet client used for closed witnesses. -/
def mainnetClient : ExchangeClient :=
  { base_url := "https://api.hyperliquid.xyz"
    vault_address := none
    coin_to_asset := [("ETH", 1)] }

/-- C2 counterexample: at a concrete client and input, the payload signed by
set_referrer is NOT a typed-data hash of the SetReferrer action — it is the
L1-agent wrapper around the ConnectionId, contradicting the claim that
set_referrer signs via the typed-data path. -/
theorem c2_set_referrer_not_typed_data_counterexample :
    ((testnetClient.set_referrer_submission fromBeBytes (fun _ => [])
        (fun _ => { r := 0, s := 0, recid := 0 }) 1000 "TESTNET").map
      (fun s => s.signedPayload.isTypedData)) ≠ .ok true := by
  have h0 : ((testnetClient.set_referrer_submission fromBeBytes (fun _ => [])
      (fun _ => { r := 0, s := 0, recid := 0 }) 1000 "TESTNET").map
        (fun s => s.signedPayload.isTypedData)) = Except.ok false := rfl
  rw [h0]
  simp

/-- C2 (amended): set_referrer signs its action via the L1-agent
ConnectionId path — the SetReferrer action is hashed into a ConnectionId
(against the client's vault address) and the wallet signs the Agent struct
wrapping that ConnectionId, exactly as for the trading actions. -/
theorem c2_set_referrer_signs_l1_agent (c : ExchangeClient)
    (keccak : List Nat → Nat) (enc : Actions → List Nat)
    (sign : SignedPayload → RecoverableSignature)
    (timestamp : Nat) (code : String) :
    c.set_referrer_submission keccak enc sign timestamp code
      = .ok (c.l1Submission keccak enc sign timestamp
          (Actions.SetReferrer { code := code }))
    ∧ (c.l1Submission keccak enc sign timestamp
        (Actions.SetReferrer { code := code })).signedPayload
      = SignedPayload.l1Agent
          (agentPayload
            (Actions.hash keccak enc (Actions.SetReferrer { code := code })
              timestamp c.vault_address)
            c.is_mainnet) :=
  ⟨rfl, rfl⟩

/-- Shared helper: a submission equal to an l1Submission signs the Agent
wrapper of the ConnectionId of its own action. -/
theorem l1_ok_payload (c : ExchangeClient) (keccak : List Nat → Nat)
    (enc : Actions → List Nat) (sign : SignedPayload → RecoverableSignature)
    (timestamp : Nat) {action : Actions} {sub : Submission}
    (h : sub = c.l1Submission keccak enc sign timestamp action) :
    sub.signedPayload
      = SignedPayload.l1Agent
          (agentPayload (Actions.hash keccak enc sub.action timestamp c.vault_address)
            c.is_mainnet) := by
  subst h; rfl

/-- C3: Every L1-class operation (orders, cancels — by oid and by cloid —,
modifies, leverage and isolated-margin updates, vault transfers, class
transfers) signs the Agent struct {source, connectionId}, where source is
"a" exactly when the client's base URL is the mainnet URL and "b" otherwise;
consequently, for an identical action and nonce, the mainnet payload and the
testnet payload handed to the wallet differ. -/
theorem c3_l1_agent_source (c : ExchangeClient) (keccak : List Nat → Nat)
    (enc : Actions → List Nat) (sign : SignedPayload → RecoverableSignature)
    (timestamp : Nat) :
    (∀ orders sub,
        c.bulk_order_submission keccak enc sign timestamp orders = .ok sub →
        sub.signedPayload
          = SignedPayload.l1Agent
              (agentPayload
                (Actions.hash keccak enc sub.action timestamp c.vault_address)
                c.is_mainnet))
    ∧ (∀ cancels sub,
        c.bulk_cancel_submission keccak enc sign timestamp cancels = .ok sub →
        sub.signedPayload
          = SignedPayload.l1Agent
              (agentPayload
                (Actions.hash keccak enc sub.action timestamp c.vault_address)
                c.is_mainnet))
    ∧ (∀ uuidToHex cancels sub,
        c.bulk_cancel_by_cloid_submission keccak enc sign uuidToHex timestamp
            cancels = .ok sub →
        sub.signedPayload
          = SignedPayload.l1Agent
              (agentPayload
                (Actions.hash keccak enc sub.action timestamp c.vault_address)
                c.is_mainnet))
    ∧ (∀ modifies sub,
        c.bulk_modify_submission keccak enc sign timestamp modifies = .ok sub →
        sub.signedPayload
          = SignedPayload.l1Agent
              (agentPayload
                (Actions.hash keccak enc sub.action timestamp c.vault_address)
                c.is_mainnet))
    ∧ (∀ leverage coin is_cross sub,
        c.update_leverage_submission keccak enc sign timestamp leverage coin
            is_cross = .ok sub →
        sub.signedPayload
          = SignedPayload.l1Agent
              (agentPayload
                (Actions.hash keccak enc sub.action timestamp c.vault_address)
                c.is_mainnet))
    ∧ (∀ amount coin sub,
        c.update_isolated_margin_submission keccak enc sign timestamp amount
            coin = .ok sub →
        sub.signedPayload
          = SignedPayload.l1Agent
              (agentPayload
                (Actions.hash keccak enc sub.action timestamp c.vault_address)
                c.is_mainnet))
    ∧ (∀ is_deposit usd vault_address sub,
        c.vault_transfer_submission keccak enc sign timestamp is_deposit usd
            vault_address = .ok sub →
        sub.signedPayload
          = SignedPayload.l1Agent
              (agentPayload
                (Actions.hash keccak enc sub.action timestamp c.vault_address)
                c.is_mainnet))
    ∧ (∀ usdc to_perp sub,
        c.class_transfer_submission keccak enc sign timestamp usdc to_perp
            = .ok sub →
        sub.signedPayload
          = SignedPayload.l1Agent
              (agentPayload
                (Actions.hash keccak enc sub.action timestamp c.vault_address)
                c.is_mainnet))
    ∧ (∀ connection_id,
        (agentPayload connection_id true).source = "a"
        ∧ (agentPayload connection_id false).source = "b")
    ∧ (c.is_mainnet = true ↔ c.base_url = mainnetUrl)
    ∧ (∀ connection_id,
        agentPayload connection_id true ≠ agentPayload connection_id false) := by
  refine ⟨?_, ?_, ?_, ?_, ?_, ?_, ?_, ?_,
    fun connection_id => ⟨rfl, rfl⟩, ?_, fun connection_id h => ?_⟩
  · intro orders sub h
    cases ht : transformOrders c.coin_to_asset orders with
    | error e => simp [ExchangeClient.bulk_order_submission, ht] at h
    | ok t =>
      simp [ExchangeClient.bulk_order_submission, ht] at h
      exact l1_ok_payload c keccak enc sign timestamp h.symm
  · intro cancels sub h
    cases ht : transformCancels c.coin_to_asset cancels with
    | error e => simp [ExchangeClient.bulk_cancel_submission, ht] at h
    | ok t =>
      simp [ExchangeClient.bulk_cancel_submission, ht] at h
      exact l1_ok_payload c keccak enc sign timestamp h.symm
  · intro uuidToHex cancels sub h
    cases ht : transformCancelsCloid uuidToHex c.coin_to_asset cancels with
    | error e => simp [ExchangeClient.bulk_cancel_by_cloid_submission, ht] at h
    | ok t =>
      simp [ExchangeClient.bulk_cancel_by_cloid_submission, ht] at h
      exact l1_ok_payload c keccak enc sign timestamp h.symm
  · intro modifies sub h
    cases ht : transformModifies c.coin_to_asset modifies with
    | error e => simp [ExchangeClient.bulk_modify_submission, ht] at h
    | ok t =>
      simp [ExchangeClient.bulk_modify_submission, ht] at h
      exact l1_ok_payload c keccak enc sign timestamp h.symm
  · intro leverage coin is_cross sub h
    cases ht : c.coin_to_asset.lookup coin with
    | none => simp [ExchangeClient.update_leverage_submission, ht] at h
    | some idx =>
      simp [ExchangeClient.update_leverage_submission, ht] at h
      exact l1_ok_payload c keccak enc sign timestamp h.symm
  · intro amount coin sub h
    cases ht : c.coin_to_asset.lookup coin with
    | none => simp [ExchangeClient.update_isolated_margin_submission, ht] at h
    | some idx =>
      simp [ExchangeClient.update_isolated_margin_submission, ht] at h
      exact l1_ok_payload c keccak enc sign timestamp h.symm
  · intro is_deposit usd vault_address sub h
    cases ht : c.vault_address.or vault_address with
    | none => simp [ExchangeClient.vault_transfer_submission, ht] at h
    | some va =>
      simp [ExchangeClient.vault_transfer_submission, ht] at h
      exact l1_ok_payload c keccak enc sign timestamp h.symm
  · intro usdc to_perp sub h
    simp only [ExchangeClient.class_transfer_submission, Except.ok.injEq] at h
    exact l1_ok_payload c keccak enc sign timestamp h.symm
  · simp [ExchangeClient.is_mainnet]
  · simp [agentPayload] at h

theorem c3_l1_agent_source_witness :
    (testnetClient.l1Submission fromBeBytes (fun _ => [])
        (fun _ => { r := 0, s := 0, recid := 0 }) 5
        (Actions.Cancel { cancels := [] })).signedPayload
      = SignedPayload.l1Agent
          (agentPayload
            (Actions.hash fromBeBytes (fun _ => [])
              ((testnetClient.l1Submission fromBeBytes (fun _ => [])
                  (fun _ => { r := 0, s := 0, recid := 0 }) 5
                  (Actions.Cancel { cancels := [] })).action)
              5 testnetClient.vault_address)
            testnetClient.is_mainnet) :=
  (c3_l1_agent_source testnetClient fromBeBytes (fun _ => [])
      (fun _ => { r := 0, s := 0, recid := 0 }) 5).2.1 [] _ rfl

/-! ## Vault transfer precedence (C10) -/

/-- C10: vault_transfer resolves the embedded vault address as
self.vault_address.or(argument): the client's configured vault address wins
whenever it is set, the per-call argument is used only when the client has
none, the call fails with VaultAddressNotFound exactly when both are None,
and in that case the full call returns the typed error for every choice of
hashing / signing / HTTP collaborator (none of them is consulted). -/
theorem c10_vault_transfer_precedence (c : ExchangeClient)
    (keccak : List Nat → Nat) (enc : Actions → List Nat)
    (sign : SignedPayload → RecoverableSignature)
    (timestamp : Nat) (is_deposit : Bool) (usd : String) :
    (∀ a vault_address, c.vault_address = some a →
        c.vault_transfer_submission keccak enc sign timestamp is_deposit usd
            vault_address
          = .ok (c.l1Submission keccak enc sign timestamp
              (Actions.VaultTransfer
                { vault_address := a, is_deposit := is_deposit, usd := usd })))
    ∧ (∀ b, c.vault_address = none →
        c.vault_transfer_submission keccak enc sign timestamp is_deposit usd
            (some b)
          = .ok (c.l1Submission keccak enc sign timestamp
              (Actions.VaultTransfer
                { vault_address := b, is_deposit := is_deposit, usd := usd })))
    ∧ (∀ vault_address,
        c.vault_transfer_submission keccak enc sign timestamp is_deposit usd
            vault_address = .error .VaultAddressNotFound
        ↔ c.vault_address = none ∧ vault_address = none)
    ∧ (∀ jsonEnc render http parse, c.vault_address = none →
        c.vault_transfer keccak enc sign jsonEnc render http parse timestamp
            is_deposit usd none
          = .err .VaultAddressNotFound) := by
  refine ⟨?_, ?_, ?_, ?_⟩
  · intro a vault_address ha
    simp [ExchangeClient.vault_transfer_submission, ha, Option.or]
  · intro b hnone
    simp [ExchangeClient.vault_transfer_submission, hnone, Option.or]
  · intro vault_address
    cases hc : c.vault_address with
    | some a => simp [ExchangeClient.vault_transfer_submission, hc, Option.or]
    | none =>
      cases vault_address with
      | some b => simp [ExchangeClient.vault_transfer_submission, hc, Option.or]
      | none => simp [ExchangeClient.vault_transfer_submission, hc, Option.or]
  · intro jsonEnc render http parse hnone
    simp [ExchangeClient.vault_transfer, ExchangeClient.vault_transfer_submission,
      hnone, Option.or, ExchangeClient.runSubmission]

theorem c10_vault_transfer_precedence_witness :
    ({ base_url := mainnetUrl, vault_address := some ⟨7, by norm_num⟩,
       coin_to_asset := [] } :
        ExchangeClient).vault_address = some ⟨7, by norm_num⟩
    ∧ ({ base_url := mainnetUrl, vault_address := some ⟨7, by norm_num⟩,
         coin_to_asset := [] } :
          ExchangeClient).vault_transfer_submission fromBeBytes (fun _ => [])
          (fun _ => { r := 0, s := 0, recid := 0 }) 9 true "10"
          (some ⟨8, by norm_num⟩)
        = .ok (({ base_url := mainnetUrl, vault_address := some ⟨7, by norm_num⟩,
                  coin_to_asset := [] } :
                 ExchangeClient).l1Submission fromBeBytes (fun _ => [])
            (fun _ => { r := 0, s := 0, recid := 0 }) 9
            (Actions.VaultTransfer
              { vault_address := ⟨7, by norm_num⟩, is_deposit := true,
                usd := "10" })) :=
  ⟨rfl,
   (c10_vault_transfer_precedence _ fromBeBytes (fun _ => [])
      (fun _ => { r := 0, s := 0, recid := 0 }) 9 true "10").1 ⟨7, by norm_num⟩
     (some ⟨8, by norm_num⟩) rfl⟩

/-! ## Unknown-symbol short-circuit (C6) -/

theorem transformCancels_missing (m : List (String × Nat))
    (cancels : List ClientCancelRequest)
    (h : ∃ cancel ∈ cancels, m.lookup cancel.asset = none) :
    transformCancels m cancels = .error .AssetNotFound := by
  induction cancels with
  | nil => simp at h
  | cons cancel rest ih =>
    obtain ⟨cl, hmem, hnone⟩ := h
    rcases List.mem_cons.mp hmem with rfl | hmem
    · simp [transformCancels, hnone]
    · cases hl : m.lookup cancel.asset with
      | none => simp [transformCancels, hl]
      | some a => simp [transformCancels, hl, ih ⟨cl, hmem, hnone⟩]

theorem transformOrders_missing (m : List (String × Nat))
    (orders : List ClientOrderRequest)
    (h : ∃ order ∈ orders, m.lookup order.asset = none) :
    transformOrders m orders = .error .AssetNotFound := by
  induction orders with
  | nil => simp at h
  | cons order rest ih =>
    obtain ⟨o, hmem, hnone⟩ := h
    rcases List.mem_cons.mp hmem with rfl | hmem
    · simp [transformOrders, ClientOrderRequest.convert, hnone]
    · cases hl : m.lookup order.asset with
      | none => simp [transformOrders, ClientOrderRequest.convert, hl]
      | some a =>
        simp [transformOrders, ClientOrderRequest.convert, hl,
          ih ⟨o, hmem, hnone⟩]

theorem transformModifies_missing (m : List (String × Nat))
    (modifies : List ClientModifyRequest)
    (h : ∃ modify ∈ modifies, m.lookup modify.order.asset = none) :
    transformModifies m modifies = .error .AssetNotFound := by
  induction modifies with
  | nil => simp at h
  | cons modify rest ih =>
    obtain ⟨mo, hmem, hnone⟩ := h
    rcases List.mem_cons.mp hmem with rfl | hmem
    · simp [transformModifies, ClientOrderRequest.convert, hnone]
    · cases hl : m.lookup modify.order.asset with
      | none => simp [transformModifies, ClientOrderRequest.convert, hl]
      | some a =>
        simp [transformModifies, ClientOrderRequest.convert, hl,
          ih ⟨mo, hmem, hnone⟩]

/-- C6: a bulk cancel, bulk order, or bulk modify containing at least one
unknown symbol — and an update_leverage on an unknown coin — returns the
typed AssetNotFound error, and does so for EVERY choice of keccak,
MessagePack encoder, wallet and HTTP collaborator: none of the hashing,
signing, or HTTP machinery can influence the outcome, so the failure happens
before any of that work. -/
theorem c6_unknown_symbol_short_circuits :
    (∀ (c : ExchangeClient) keccak enc sign jsonEnc render http parse
        timestamp cancels,
        (∃ cancel ∈ cancels, c.coin_to_asset.lookup cancel.asset = none) →
        c.bulk_cancel keccak enc sign jsonEnc render http parse timestamp
            cancels
          = .err .AssetNotFound)
    ∧ (∀ (c : ExchangeClient) keccak enc sign jsonEnc render http parse
        timestamp orders,
        (∃ order ∈ orders, c.coin_to_asset.lookup order.asset = none) →
        c.bulk_order keccak enc sign jsonEnc render http parse timestamp
            orders
          = .err .AssetNotFound)
    ∧ (∀ (c : ExchangeClient) keccak enc sign jsonEnc render http parse
        timestamp modifies,
        (∃ modify ∈ modifies,
            c.coin_to_asset.lookup modify.order.asset = none) →
        c.bulk_modify keccak enc sign jsonEnc render http parse timestamp
            modifies
          = .err .AssetNotFound)
    ∧ (∀ (c : ExchangeClient) keccak enc sign jsonEnc render http parse
        timestamp leverage coin is_cross,
        c.coin_to_asset.lookup coin = none →
        c.update_leverage keccak enc sign jsonEnc render http parse timestamp
            leverage coin is_cross
          = .err .AssetNotFound) := by
  refine ⟨?_, ?_, ?_, ?_⟩
  · intro c keccak enc sign jsonEnc render http parse timestamp cancels h
    simp [ExchangeClient.bulk_cancel, ExchangeClient.bulk_cancel_submission,
      transformCancels_missing c.coin_to_asset cancels h,
      ExchangeClient.runSubmission]
  · intro c keccak enc sign jsonEnc render http parse timestamp orders h
    simp [ExchangeClient.bulk_order, ExchangeClient.bulk_order_submission,
      transformOrders_missing c.coin_to_asset orders h,
      ExchangeClient.runSubmission]
  · intro c keccak enc sign jsonEnc render http parse timestamp modifies h
    simp [ExchangeClient.bulk_modify, ExchangeClient.bulk_modify_submission,
      transformModifies_missing c.coin_to_asset modifies h,
      ExchangeClient.runSubmission]
  · intro c keccak enc sign jsonEnc render http parse timestamp leverage
      coin is_cross h
    simp [ExchangeClient.update_leverage,
      ExchangeClient.update_leverage_submission, h,
      ExchangeClient.runSubmission]

theorem c6_unknown_symbol_short_circuits_witness :
    (∃ cancel ∈ [({ asset := "DOGE", oid := 1 } : ClientCancelRequest),
        { asset := "DOGE", oid := 2 }, { asset := "DOGE", oid := 3 }],
      testnetClient.coin_to_asset.lookup cancel.asset = none)
    ∧ testnetClient.bulk_cancel fromBeBytes (fun _ => [])
        (fun _ => { r := 0, s := 0, recid := 0 }) (fun _ => .num 0)
        (fun _ => .ok "") (fun _ => .ok "") (fun _ => .ok "") 77
        [{ asset := "DOGE", oid := 1 }, { asset := "DOGE", oid := 2 },
         { asset := "DOGE", oid := 3 }]
      = .err .AssetNotFound :=
  ⟨⟨{ asset := "DOGE", oid := 1 }, by simp, rfl⟩,
   c6_unknown_symbol_short_circuits.1 testnetClient fromBeBytes (fun _ => [])
     (fun _ => { r := 0, s := 0, recid := 0 }) (fun _ => .num 0)
     (fun _ => .ok "") (fun _ => .ok "") (fun _ => .ok "") 77 _
     ⟨{ asset := "DOGE", oid := 1 }, by simp, rfl⟩⟩

/-! ## Wire payload shape (C5) -/

/-- C5: the wire payload ExchangeClient::post assembles and serializes has
the shape {action, signature: {r, s, v}, nonce, vaultAddress?}, with v the
recovery id plus 27 and the vaultAddress key omitted entirely when the
client has no vault address. -/
theorem c5_wire_payload_shape (c : ExchangeClient) (action : JVal)
    (signature : RecoverableSignature) (nonce : Nat) :
    serializeExchangePayload (c.wirePayload action signature nonce)
      = .obj ([("action", action),
               ("signature", .obj [("r", .num signature.r),
                                   ("s", .num signature.s),
                                   ("v", .num (signature.recid + 27))]),
               ("nonce", .num nonce)] ++
              (match c.vault_address with
               | none => []
               | some a => [("vaultAddress", .num a.val)]))
    ∧ (c.vault_address = none →
        serializeExchangePayload (c.wirePayload action signature nonce)
          = .obj [("action", action),
                  ("signature", .obj [("r", .num signature.r),
                                      ("s", .num signature.s),
                                      ("v", .num (signature.recid + 27))]),
                  ("nonce", .num nonce)]) := by
  constructor
  · rfl
  · intro h
    simp [serializeExchangePayload, ExchangeClient.wirePayload, h,
      jsonOfEthersSignature]

theorem c5_wire_payload_shape_witness :
    testnetClient.vault_address = none
    ∧ serializeExchangePayload
        (testnetClient.wirePayload (.num 4) { r := 1, s := 2, recid := 1 } 6)
      = .obj [("action", .num 4),
              ("signature", .obj [("r", .num 1), ("s", .num 2),
                                  ("v", .num (1 + 27))]),
              ("nonce", .num 6)] :=
  ⟨rfl,
   (c5_wire_payload_shape testnetClient (.num 4) { r := 1, s := 2, recid := 1 }
      6).2 rfl⟩

/-! ## Error propagation on the write pipeline (C4) -/

/-- C4 evidence: the source contradicts the spec's propagation policy.  An
HTTP transport failure inside ExchangeClient::post is consumed with
.unwrap() and panics instead of surfacing as a typed NetworkError, and a
wallet failure inside sign_hash is likewise consumed with .unwrap(); only
the JSON encode/decode failures are mapped to typed errors. -/
theorem c4_unwrap_panics_on_transport_and_signer_failure :
    testnetClient.post (.num 0) { r := 0, s := 0, recid := 0 } 1
        (fun _ => .ok "body") (fun _ => .error "connection refused")
        (fun _ => .ok "resp")
      = .panicked
    ∧ sign_hash (.error "signer unavailable") = .panicked
    ∧ testnetClient.post (.num 0) { r := 0, s := 0, recid := 0 } 1
        (fun _ => .ok "body") (fun _ => .ok "response")
        (fun _ => .error "bad json")
      = .err (.JsonParse "bad json") :=
  ⟨rfl, rfl, rfl⟩

/-! ## Rounding lemmas -/

theorem round_mono {x y : ℚ} (h : x ≤ y) : round x ≤ round y := by
  rw [round_eq, round_eq]
  exact Int.floor_mono (by linarith)

theorem int_le_round (z : ℤ) (x : ℚ) (h : (z : ℚ) ≤ x) : z ≤ round x := by
  rw [round_eq]
  exact Int.le_floor.mpr (by linarith)

theorem round_le_int (x : ℚ) (z : ℤ) (h : x ≤ (z : ℚ)) : round x ≤ z := by
  have h1 : (round x : ℚ) ≤ x + 1 / 2 := round_le_add_half x
  have h2 : (round x : ℚ) < (z : ℚ) + 1 := by linarith
  exact_mod_cast Int.lt_add_one_iff.mp (by exact_mod_cast h2)

theorem rustRound_intCast (n : ℤ) : rustRound (n : ℚ) = n := by
  unfold rustRound
  split
  · rw [← Int.cast_neg, round_intCast]; ring
  · exact round_intCast n

theorem rustRound_of_nonneg {x : ℚ} (h : 0 ≤ x) : rustRound x = round x :=
  if_neg (not_lt.mpr h)

theorem rustRound_neg (x : ℚ) : rustRound (-x) = -rustRound x := by
  rcases lt_trichotomy x 0 with h | h | h
  · rw [rustRound_of_nonneg (by linarith), rustRound, if_pos h, neg_neg]
  · subst h; simp [rustRound]
  · rw [rustRound, if_pos (by linarith), neg_neg, rustRound_of_nonneg h.le]

theorem rustRound_nonneg {x : ℚ} (h : 0 ≤ x) : 0 ≤ rustRound x := by
  rw [rustRound_of_nonneg h]
  exact int_le_round 0 x (by exact_mod_cast h)

/-- Rounding to d decimals is the identity on values that are integer
multiples of 10^(-d). -/
theorem round_to_decimals_exact (x : ℚ) (d : Nat) (k : ℤ)
    (h : x * 10 ^ d = (k : ℚ)) : round_to_decimals x d = x := by
  simp only [round_to_decimals]
  rw [h, rustRound_intCast, ← h]
  field_simp

theorem round_to_decimals_neg (x : ℚ) (d : Nat) :
    round_to_decimals (-x) d = -round_to_decimals x d := by
  simp only [round_to_decimals]
  rw [neg_mul, rustRound_neg]
  push_cast
  ring

/-- The output of round_to_decimals, scaled by 10^d, is an integer. -/
theorem round_to_decimals_mul_pow_int (x : ℚ) (d : Nat) :
    ∃ k : ℤ, round_to_decimals x d * 10 ^ d = (k : ℚ) := by
  refine ⟨rustRound (x * 10 ^ d), ?_⟩
  simp only [round_to_decimals]
  field_simp

/-- The output of round_to_significant_and_decimal, scaled by 10^d, is an
integer: the value carries at most d decimal places. -/
theorem round_to_significant_and_decimal_mul_pow_int (v : ℚ) (s d : Nat) :
    ∃ k : ℤ, round_to_significant_and_decimal v s d * 10 ^ d = (k : ℚ) := by
  simp only [round_to_significant_and_decimal]
  exact round_to_decimals_mul_pow_int _ d

/-- C7: the execution price of a market-style order is the reference price
times (1 + slippage) for a buy and (1 - slippage) for a sell, rounded to 5
significant figures and to at most max_decimals - sz_decimals decimal
places, with max_decimals 6 for asset indices below 10000 and 8 otherwise;
the returned price indeed carries at most that many decimal places, and the
size decimals are passed through. -/
theorem c7_slippage_price (asset_index sz_decimals : Nat) (is_buy : Bool)
    (slippage px : ℚ) :
    (calculate_slippage_price asset_index sz_decimals is_buy slippage px).1
      = round_to_significant_and_decimal
          (px * (if is_buy then 1 + slippage else 1 - slippage)) 5
          ((if asset_index < 10000 then 6 else 8) - sz_decimals)
    ∧ (calculate_slippage_price asset_index sz_decimals is_buy slippage px).2
      = sz_decimals
    ∧ (∃ k : ℤ,
        (calculate_slippage_price asset_index sz_decimals is_buy slippage px).1
            * 10 ^ ((if asset_index < 10000 then 6 else 8) - sz_decimals)
          = (k : ℚ)) :=
  ⟨rfl, rfl,
   round_to_significant_and_decimal_mul_pow_int _ 5 _⟩

theorem ten_zpow_pos (m : ℤ) : (0 : ℚ) < (10 : ℚ) ^ m := zpow_pos (by norm_num) m

theorem log10_eq_of_bounds {w : ℚ} {m : ℤ} (hw : 0 < w)
    (h1 : (10 : ℚ) ^ m ≤ w) (h2 : w < (10 : ℚ) ^ (m + 1)) :
    Int.log 10 w = m := by
  have hle : m ≤ Int.log 10 w :=
    (Int.zpow_le_iff_le_log (by norm_num) hw).mp (by exact_mod_cast h1)
  have hlt : Int.log 10 w < m + 1 :=
    (Int.lt_zpow_iff_log_lt (by norm_num) hw).mp (by exact_mod_cast h2)
  omega

theorem log10_self_le {v : ℚ} (hv : 0 < v) : (10 : ℚ) ^ (Int.log 10 v) ≤ v := by
  have := Int.zpow_log_le_self (b := 10) (R := ℚ) (by norm_num) hv
  exact_mod_cast this

theorem lt_log10_succ (v : ℚ) : v < (10 : ℚ) ^ (Int.log 10 v + 1) := by
  have := Int.lt_zpow_succ_log_self (b := 10) (R := ℚ) (by norm_num) v
  exact_mod_cast this

theorem log10_zpow (z : ℤ) : Int.log 10 ((10 : ℚ) ^ z) = z := by
  have := Int.log_zpow (b := 10) (R := ℚ) (by norm_num) z
  exact_mod_cast this

theorem f5_zero (d : Nat) : round_to_significant_and_decimal 0 5 d = 0 := by
  simp [round_to_significant_and_decimal, round_to_decimals, copysign, rustRound]

theorem copysign_neg_right (x : ℚ) {v : ℚ} (hv : v ≠ 0) :
    copysign x (-v) = -copysign x v := by
  rcases lt_or_gt_of_ne hv with h | h
  · rw [copysign, if_neg (by linarith), copysign, if_pos h, neg_neg]
  · rw [copysign, if_pos (by linarith), copysign, if_neg (by linarith)]

theorem f5_neg (v : ℚ) (d : Nat) :
    round_to_significant_and_decimal (-v) 5 d
      = -round_to_significant_and_decimal v 5 d := by
  rcases eq_or_ne v 0 with rfl | hv
  · simp [f5_zero]
  · simp only [round_to_significant_and_decimal, abs_neg]
    rw [copysign_neg_right _ hv, round_to_decimals_neg]

/-- For positive input, round_to_significant_and_decimal is the decimal
rounding of round(v * 10^(4 - log10 v)) / 10^(4 - log10 v). -/
theorem f5_pos_formula {v : ℚ} (hv : 0 < v) (d : Nat) :
    round_to_significant_and_decimal v 5 d
      = round_to_decimals
          ((round (v * (10 : ℚ) ^ ((4 : ℤ) - Int.log 10 v)) : ℚ)
            / (10 : ℚ) ^ ((4 : ℤ) - Int.log 10 v)) d := by
  simp only [round_to_significant_and_decimal, abs_of_pos hv]
  have hexp : ((5 : ℕ) : ℤ) - Int.log 10 v - 1 = 4 - Int.log 10 v := by
    push_cast; ring
  rw [hexp, rustRound_of_nonneg (mul_nonneg hv.le (ten_zpow_pos _).le)]
  have hr0 : (0 : ℚ) ≤ (round (v * (10 : ℚ) ^ ((4 : ℤ) - Int.log 10 v)) : ℚ) := by
    exact_mod_cast int_le_round 0 _
      (by exact_mod_cast mul_nonneg hv.le (ten_zpow_pos ((4 : ℤ) - Int.log 10 v)).le)
  rw [copysign, if_neg (not_lt.mpr hv.le),
    abs_of_nonneg (div_nonneg hr0 (ten_zpow_pos _).le)]

/-- A positive value that is an integer multiple of 10^(log10 - 4) units of
its own significant-figure grid and of the decimal grid is a fixed point of
round_to_significant_and_decimal at 5 significant figures. -/
theorem round_sig_exact {w : ℚ} (hw : 0 < w) (d : Nat)
    (hsig : ∃ k : ℤ, w * (10 : ℚ) ^ ((4 : ℤ) - Int.log 10 w) = (k : ℚ))
    (hdec : ∃ k : ℤ, w * 10 ^ d = (k : ℚ)) :
    round_to_significant_and_decimal w 5 d = w := by
  obtain ⟨k, hk⟩ := hsig
  obtain ⟨k2, hk2⟩ := hdec
  rw [f5_pos_formula hw d, hk, round_intCast, ← hk,
    mul_div_cancel_right₀ w (ten_zpow_pos ((4 : ℤ) - Int.log 10 w)).ne.symm]
  exact round_to_decimals_exact w d k2 hk2

theorem div_zpow_mul_zpow (x : ℚ) (a b : ℤ) :
    x / (10 : ℚ) ^ a * (10 : ℚ) ^ b = x * (10 : ℚ) ^ (b - a) := by
  rw [div_mul_eq_mul_div, mul_div_assoc,
    ← zpow_sub₀ (by norm_num : (10 : ℚ) ≠ 0)]

theorem int_mul_zpow_nonneg (j e : ℤ) (he : 0 ≤ e) :
    ∃ k : ℤ, (j : ℚ) * (10 : ℚ) ^ e = (k : ℚ) := by
  refine ⟨j * 10 ^ e.toNat, ?_⟩
  push_cast
  rw [← zpow_natCast (10 : ℚ) e.toNat, Int.toNat_of_nonneg he]

/-- Properties of the decimal-rounding stage applied to a value with five
significant figures at magnitude m (w1 = j / 10^(4-m) with 10^4 ≤ j ≤ 10^5):
the result is nonnegative, lies on the 10^(-d) grid, and — unless it is
zero — also lies on the significant-figure grid of its own magnitude. -/
theorem decimals_stage_props {d : Nat} {m j : ℤ} {w1 : ℚ}
    (hj_lb : (10000 : ℤ) ≤ j) (hj_ub : j ≤ 100000)
    (hw1 : w1 = (j : ℚ) / (10 : ℚ) ^ ((4 : ℤ) - m)) :
    0 ≤ round_to_decimals w1 d
    ∧ (∃ k : ℤ, round_to_decimals w1 d * 10 ^ d = (k : ℚ))
    ∧ (round_to_decimals w1 d ≠ 0 →
        ∃ k : ℤ,
          round_to_decimals w1 d
              * (10 : ℚ) ^ ((4 : ℤ) - Int.log 10 (round_to_decimals w1 d))
            = (k : ℚ)) := by
  have hscpos : (0 : ℚ) < (10 : ℚ) ^ ((4 : ℤ) - m) := ten_zpow_pos _
  have hw1pos : 0 < w1 := by
    rw [hw1]
    exact div_pos (by exact_mod_cast lt_of_lt_of_le (by norm_num) hj_lb) hscpos
  have hpow_d_pos : (0 : ℚ) < 10 ^ d := by positivity
  set k : ℤ := round (w1 * 10 ^ d) with hkdef
  have hk : round_to_decimals w1 d = (k : ℚ) / 10 ^ d := by
    simp only [round_to_decimals]
    rw [rustRound_of_nonneg (mul_nonneg hw1pos.le hpow_d_pos.le)]
  have hknn : 0 ≤ k :=
    int_le_round 0 _ (by exact_mod_cast mul_nonneg hw1pos.le hpow_d_pos.le)
  have hfnn : 0 ≤ round_to_decimals w1 d := by
    rw [hk]
    exact div_nonneg (by exact_mod_cast hknn) hpow_d_pos.le
  refine ⟨hfnn, ⟨k, by rw [hk]; field_simp⟩, fun hne => ?_⟩
  have hwpos : 0 < round_to_decimals w1 d := lt_of_le_of_ne hfnn (Ne.symm hne)
  have hub' : w1 ≤ (10 : ℚ) ^ (m + 1) := by
    rw [hw1, div_le_iff₀ hscpos, ← zpow_add₀ (by norm_num : (10 : ℚ) ≠ 0)]
    have h5 : m + 1 + (4 - m) = (5 : ℤ) := by ring
    rw [h5]
    calc (j : ℚ) ≤ 100000 := by exact_mod_cast hj_ub
    _ = (10 : ℚ) ^ (5 : ℤ) := by norm_num
  have hlb' : (10 : ℚ) ^ m ≤ w1 := by
    rw [hw1, le_div_iff₀ hscpos, ← zpow_add₀ (by norm_num : (10 : ℚ) ≠ 0)]
    have h4 : m + (4 - m) = (4 : ℤ) := by ring
    rw [h4]
    calc (10 : ℚ) ^ (4 : ℤ) = 10000 := by norm_num
    _ ≤ (j : ℚ) := by exact_mod_cast hj_lb
  by_cases hcase : ∃ i : ℤ, w1 * 10 ^ d = (i : ℚ)
  · obtain ⟨i, hi⟩ := hcase
    have hfw : round_to_decimals w1 d = w1 := round_to_decimals_exact w1 d i hi
    rw [hfw]
    rcases eq_or_lt_of_le hub' with heq | hlt
    · rw [heq, log10_zpow]
      refine ⟨10000, ?_⟩
      rw [← zpow_add₀ (by norm_num : (10 : ℚ) ≠ 0)]
      have h4 : m + 1 + (4 - (m + 1)) = (4 : ℤ) := by ring
      rw [h4]
      norm_num
    · rw [log10_eq_of_bounds hw1pos hlb' hlt]
      refine ⟨j, ?_⟩
      rw [hw1, div_mul_cancel₀ _ hscpos.ne.symm]
  · have hmd : m + (d : ℤ) ≤ 3 := by
      by_contra hcon
      push_neg at hcon
      apply hcase
      have he : (0 : ℤ) ≤ m - 4 + d := by omega
      have h1 : w1 * 10 ^ d = (j : ℚ) * (10 : ℚ) ^ (m - 4 + (d : ℤ)) := by
        rw [hw1, ← zpow_natCast (10 : ℚ) d, div_zpow_mul_zpow]
        congr 1
        ring
      obtain ⟨i, hi⟩ := int_mul_zpow_nonneg j (m - 4 + d) he
      exact ⟨i, by rw [h1, hi]⟩
    have harg_ub : w1 * 10 ^ d ≤ 10000 := by
      calc w1 * 10 ^ d ≤ (10 : ℚ) ^ (m + 1) * 10 ^ d :=
            mul_le_mul_of_nonneg_right hub' hpow_d_pos.le
      _ = (10 : ℚ) ^ (m + 1 + (d : ℤ)) := by
            rw [← zpow_natCast (10 : ℚ) d,
              ← zpow_add₀ (by norm_num : (10 : ℚ) ≠ 0)]
      _ ≤ (10 : ℚ) ^ (4 : ℤ) := zpow_le_zpow_right₀ (by norm_num) (by omega)
      _ = 10000 := by norm_num
    have hk_ub : k ≤ 10000 := round_le_int _ 10000 (by exact_mod_cast harg_ub)
    have hf_ub : round_to_decimals w1 d ≤ (10 : ℚ) ^ ((4 : ℤ) - d) := by
      rw [hk, div_le_iff₀ hpow_d_pos]
      calc (k : ℚ) ≤ 10000 := by exact_mod_cast hk_ub
      _ = (10 : ℚ) ^ (4 : ℤ) := by norm_num
      _ = (10 : ℚ) ^ ((4 : ℤ) - d) * 10 ^ d := by
            rw [← zpow_natCast (10 : ℚ) d,
              ← zpow_add₀ (by norm_num : (10 : ℚ) ≠ 0)]
            congr 1
            ring
    have hm' : Int.log 10 (round_to_decimals w1 d) ≤ 4 - (d : ℤ) := by
      have hmono := Int.log_mono_right (b := 10) hwpos hf_ub
      rwa [log10_zpow] at hmono
    have he' : (0 : ℤ)
        ≤ 4 - Int.log 10 (round_to_decimals w1 d) - d := by omega
    have h2 : round_to_decimals w1 d
        * (10 : ℚ) ^ ((4 : ℤ) - Int.log 10 (round_to_decimals w1 d))
        = (k : ℚ)
          * (10 : ℚ) ^ (4 - Int.log 10 (round_to_decimals w1 d) - (d : ℤ)) := by
      rw [hk, ← zpow_natCast (10 : ℚ) d, div_zpow_mul_zpow]
    obtain ⟨i, hi⟩ :=
      int_mul_zpow_nonneg k (4 - Int.log 10 (round_to_decimals w1 d) - d) he'
    exact ⟨i, by rw [h2, hi]⟩

/-- The output of round_to_significant_and_decimal on a positive input is
nonnegative, lies on the 10^(-d) decimal grid, and (when nonzero) on the
5-significant-figure grid of its own magnitude. -/
theorem f5_props_pos {v : ℚ} (hv : 0 < v) (d : Nat) :
    0 ≤ round_to_significant_and_decimal v 5 d
    ∧ (∃ k : ℤ, round_to_significant_and_decimal v 5 d * 10 ^ d = (k : ℚ))
    ∧ (round_to_significant_and_decimal v 5 d ≠ 0 →
        ∃ k : ℤ,
          round_to_significant_and_decimal v 5 d
              * (10 : ℚ)
                  ^ ((4 : ℤ)
                      - Int.log 10 (round_to_significant_and_decimal v 5 d))
            = (k : ℚ)) := by
  have hscpos : (0 : ℚ) < (10 : ℚ) ^ ((4 : ℤ) - Int.log 10 v) := ten_zpow_pos _
  have hx_lb : (10000 : ℚ) ≤ v * (10 : ℚ) ^ ((4 : ℤ) - Int.log 10 v) := by
    have h1 := log10_self_le hv
    have hmul : (10 : ℚ) ^ (Int.log 10 v)
        * (10 : ℚ) ^ ((4 : ℤ) - Int.log 10 v) = 10000 := by
      rw [← zpow_add₀ (by norm_num : (10 : ℚ) ≠ 0)]
      have h4 : Int.log 10 v + (4 - Int.log 10 v) = (4 : ℤ) := by ring
      rw [h4]
      norm_num
    calc (10000 : ℚ)
        = (10 : ℚ) ^ (Int.log 10 v) * (10 : ℚ) ^ ((4 : ℤ) - Int.log 10 v) :=
          hmul.symm
    _ ≤ v * (10 : ℚ) ^ ((4 : ℤ) - Int.log 10 v) :=
          mul_le_mul_of_nonneg_right h1 hscpos.le
  have hx_ub : v * (10 : ℚ) ^ ((4 : ℤ) - Int.log 10 v) ≤ 100000 := by
    have h2 := (lt_log10_succ v).le
    have hmul2 : (10 : ℚ) ^ (Int.log 10 v + 1)
        * (10 : ℚ) ^ ((4 : ℤ) - Int.log 10 v) = 100000 := by
      rw [← zpow_add₀ (by norm_num : (10 : ℚ) ≠ 0)]
      have h5 : Int.log 10 v + 1 + (4 - Int.log 10 v) = (5 : ℤ) := by ring
      rw [h5]
      norm_num
    calc v * (10 : ℚ) ^ ((4 : ℤ) - Int.log 10 v)
        ≤ (10 : ℚ) ^ (Int.log 10 v + 1)
            * (10 : ℚ) ^ ((4 : ℤ) - Int.log 10 v) :=
          mul_le_mul_of_nonneg_right h2 hscpos.le
    _ = 100000 := hmul2
  have hj_lb : (10000 : ℤ)
      ≤ round (v * (10 : ℚ) ^ ((4 : ℤ) - Int.log 10 v)) :=
    int_le_round _ _ (by exact_mod_cast hx_lb)
  have hj_ub : round (v * (10 : ℚ) ^ ((4 : ℤ) - Int.log 10 v)) ≤ 100000 :=
    round_le_int _ _ (by exact_mod_cast hx_ub)
  rw [f5_pos_formula hv d]
  exact decimals_stage_props hj_lb hj_ub rfl

theorem f5_idem_of_nonneg {v : ℚ} (hv : 0 ≤ v) (d : Nat) :
    round_to_significant_and_decimal
        (round_to_significant_and_decimal v 5 d) 5 d
      = round_to_significant_and_decimal v 5 d := by
  rcases eq_or_lt_of_le hv with h0 | hpos
  · rw [← h0, f5_zero, f5_zero]
  · obtain ⟨hnn, hdec, hsig⟩ := f5_props_pos hpos d
    rcases eq_or_lt_of_le hnn with hz | hfpos
    · rw [← hz, f5_zero]
    · exact round_sig_exact hfpos d (hsig hfpos.ne.symm) hdec

/-- C8: the price-rounding function — round to 5 significant figures, then
to max_decimals decimal places — is idempotent on its exact-arithmetic
model: for every rational value and every max_decimals, applying it to its
own output returns the output unchanged. -/
theorem c8_rounding_idempotent (value : ℚ) (max_decimals : Nat) :
    round_to_significant_and_decimal
        (round_to_significant_and_decimal value 5 max_decimals) 5 max_decimals
      = round_to_significant_and_decimal value 5 max_decimals := by
  rcases le_or_lt 0 value with hv | hv
  · exact f5_idem_of_nonneg hv max_decimals
  · have h1 : round_to_significant_and_decimal value 5 max_decimals
        = -round_to_significant_and_decimal (-value) 5 max_decimals := by
      have h := f5_neg (-value) max_decimals
      rwa [neg_neg] at h
    rw [h1, f5_neg, f5_idem_of_nonneg (by linarith) max_decimals]
